import Mathlib

/-!
Verification of the `agent-tools` registry core (`internal/registry`,
`internal/store`).

The Go code is shallowly embedded: the SQLite database is a `RegState`
record holding the three tables as lists of rows, each registry operation
becomes a pure function from a state to a result paired with the
successor state, and wall-clock reads (`time.Now().Unix()`) as well as
generated UUIDs become explicit arguments.  SQL statements are translated
one by one: an `INSERT` appends a row (after checking the schema's
uniqueness constraints), an `UPDATE ... WHERE` maps a conditional
rewrite over the table, a `SELECT ... ORDER BY created_at DESC` sorts by
the `created_at` column descending, and `RowsAffected` is the number of
rows matched by the `WHERE` clause.  JSON columns whose content
round-trips through `encoding/json` (`schema_json`, `pricing`) are
modelled by the decoded value; the `tags` column genuinely stores the
comma-join of the tag list and is re-split on read, exactly as the code
does.  Machine integers (`int`, `int64` timestamps) are modelled as `Int`.
-/

namespace AgentTools

/-! ## Bytes, UTF-8 and hex (Go `[]byte`, `hex.EncodeToString`) -/

/-- UTF-8 encoding of one character, as Go produces for a `string`'s bytes. -/
def charUtf8 (c : Char) : List Nat :=
  let n := c.toNat
  if n < 0x80 then [n]
  else if n < 0x800 then
    [0xC0 ||| (n >>> 6), 0x80 ||| (n &&& 0x3F)]
  else if n < 0x10000 then
    [0xE0 ||| (n >>> 12), 0x80 ||| ((n >>> 6) &&& 0x3F), 0x80 ||| (n &&& 0x3F)]
  else
    [0xF0 ||| (n >>> 18), 0x80 ||| ((n >>> 12) &&& 0x3F),
     0x80 ||| ((n >>> 6) &&& 0x3F), 0x80 ||| (n &&& 0x3F)]

/-- Byte sequence of a Go string (`[]byte(s)`). -/
def strBytes (s : String) : List Nat :=
  (s.data.map charUtf8).flatten

/-- Lowercase hex digit, as used by Go's `encoding/hex`. -/
def hexDigit (n : Nat) : Char :=
  if n < 10 then Char.ofNat (48 + n) else Char.ofNat (87 + n)

/-- Go `hex.EncodeToString`: two lowercase hex digits per byte. -/
def hexEncode (bs : List Nat) : String :=
  String.mk ((bs.map (fun b => [hexDigit (b / 16), hexDigit (b % 16)])).flatten)

/-! ## SHA-256 (Go `crypto/sha256`), over `Nat` with explicit mod `2^32` -/

/-- Truncation to a 32-bit word. -/
def w32 (x : Nat) : Nat := x % 4294967296

/-- Rotate a 32-bit word right by `n` bits. -/
def rotr32 (n x : Nat) : Nat := w32 ((x >>> n) ||| (x <<< (32 - n)))

def bigSigma0 (x : Nat) : Nat := rotr32 2 x ^^^ rotr32 13 x ^^^ rotr32 22 x
def bigSigma1 (x : Nat) : Nat := rotr32 6 x ^^^ rotr32 11 x ^^^ rotr32 25 x
def smallSigma0 (x : Nat) : Nat := rotr32 7 x ^^^ rotr32 18 x ^^^ (x >>> 3)
def smallSigma1 (x : Nat) : Nat := rotr32 17 x ^^^ rotr32 19 x ^^^ (x >>> 10)
def chFn (e f g : Nat) : Nat := (e &&& f) ^^^ ((e ^^^ 0xFFFFFFFF) &&& g)
def majFn (a b c : Nat) : Nat := (a &&& b) ^^^ (a &&& c) ^^^ (b &&& c)

/-- The 64 SHA-256 round constants (FIPS 180-4, written in decimal). -/
def sha256K : List Nat :=
  [1116352408, 1899447441, 3049323471, 3921009573, 961987163, 1508970993,
   2453635748, 2870763221, 3624381080, 310598401, 607225278, 1426881987,
   1925078388, 2162078206, 2614888103, 3248222580, 3835390401, 4022224774,
   264347078, 604807628, 770255983, 1249150122, 1555081692, 1996064986,
   2554220882, 2821834349, 2952996808, 3210313671, 3336571891, 3584528711,
   113926993, 338241895, 666307205, 773529912, 1294757372, 1396182291,
   1695183700, 1986661051, 2177026350, 2456956037, 2730485921, 2820302411,
   3259730800, 3345764771, 3516065817, 3600352804, 4094571909, 275423344,
   430227734, 506948616, 659060556, 883997877, 958139571, 1322822218,
   1537002063, 1747873779, 1955562222, 2024104815, 2227730452, 2361852424,
   2428436474, 2756734187, 3204031479, 3329325298]

/-- The initial SHA-256 hash state (FIPS 180-4, written in decimal). -/
def sha256H0 : List Nat :=
  [1779033703, 3144134277, 1013904242, 2773480762,
   1359893119, 2600822924, 528734635, 1541459225]

/-- Big-endian byte decomposition of `x` into `n` bytes. -/
def beBytes (n x : Nat) : List Nat :=
  (List.range n).map (fun i => (x >>> (8 * (n - 1 - i))) % 256)

/-- SHA-256 padding: append `0x80`, zero bytes, then the 64-bit bit length. -/
def padMessage (msg : List Nat) : List Nat :=
  let len := msg.length
  let z := (64 - ((len + 9) % 64)) % 64
  msg ++ [0x80] ++ List.replicate z 0 ++ beBytes 8 (len * 8)

/-- Big-endian 32-bit words from a byte list (four bytes per word). -/
def toWords : List Nat → List Nat
  | b0 :: b1 :: b2 :: b3 :: rest => (((b0 * 256 + b1) * 256 + b2) * 256 + b3) :: toWords rest
  | _ => []

/-- Split a byte list into 64-byte blocks. -/
def chunks64 (l : List Nat) : List (List Nat) :=
  if h : l = [] then []
  else l.take 64 :: chunks64 (l.drop 64)
termination_by l.length
decreasing_by
  simp only [List.length_drop]
  exact Nat.sub_lt (List.length_pos.mpr h) (by decide)

/-- Message-schedule extension of the 16 block words to 64 words. -/
def sha256Schedule (w16 : List Nat) : List Nat :=
  (List.range 48).foldl
    (fun w _ =>
      let n := w.length
      let wi := w32 (smallSigma1 (w.getD (n - 2) 0) + w.getD (n - 7) 0 +
                     smallSigma0 (w.getD (n - 15) 0) + w.getD (n - 16) 0)
      w ++ [wi])
    w16

/-- One round of the SHA-256 compression function. -/
def sha256Round (st : List Nat) (kw : Nat × Nat) : List Nat :=
  match st with
  | [a, b, c, d, e, f, g, h] =>
    let t1 := w32 (h + bigSigma1 e + chFn e f g + kw.1 + kw.2)
    let t2 := w32 (bigSigma0 a + majFn a b c)
    [w32 (t1 + t2), a, b, c, w32 (d + t1), e, f, g]
  | other => other

/-- Compression of one 64-byte block into the running hash state. -/
def sha256Block (hs : List Nat) (block : List Nat) : List Nat :=
  let ws := sha256Schedule (toWords block)
  let fin := (sha256K.zip ws).foldl sha256Round hs
  (hs.zip fin).map (fun p => w32 (p.1 + p.2))

/-- SHA-256 digest (32 bytes) of a byte list, as Go's `sha256.Sum256`. -/
def sha256 (msg : List Nat) : List Nat :=
  (((chunks64 (padMessage msg)).foldl sha256Block sha256H0).map (beBytes 4)).flatten

/-! ## Go `strings.Split(s, ",")` and `strings.Join(l, ",")` -/

/-- Character-level split on commas; `[]` input yields `[[]]`, as Go's
`strings.Split("", ",") = [""]`. -/
def splitCommaChars : List Char → List (List Char)
  | [] => [[]]
  | c :: cs =>
    if c = ',' then [] :: splitCommaChars cs
    else
      match splitCommaChars cs with
      | [] => [[c]]
      | t :: ts => (c :: t) :: ts

/-- Character-level comma join (Go `strings.Join` semantics). -/
def joinCommaChars : List (List Char) → List Char
  | [] => []
  | [a] => a
  | a :: b :: t => a ++ ',' :: joinCommaChars (b :: t)

/-- Go `strings.Split(s, ",")`. -/
def goSplitComma (s : String) : List String :=
  (splitCommaChars s.data).map String.mk

/-- Go `strings.Join(l, ",")`. -/
def goJoinComma (l : List String) : String :=
  String.mk (joinCommaChars (l.map String.data))

/-! ## Data model (`internal/registry/types.go`, `internal/store` schema)

`Pricing` and `ToolSchema` travel through `encoding/json` columns whose
marshal/unmarshal round-trips, so the columns are modelled by the decoded
values.  `json.RawMessage` well-formedness (`ToolSchema.Validate`) is kept
abstract as a `jsonOk : String → Bool` argument: no verified claim depends
on which byte strings parse as JSON. -/

/-- Pricing descriptor (`Pricing` in `types.go`); `model` is one of
`free`, `per_call`, `per_token`, `subscription`. -/
structure Pricing where
  model : String
  amountCLAW : String
deriving DecidableEq, Repr

/-- Input/output schema documents (`ToolSchema`), raw JSON bytes. -/
structure ToolSchema where
  input : String
  output : String
deriving DecidableEq, Repr

/-- Registration request (`RegisterToolRequest`); `providerID` is set from
the auth context by the transport layer. -/
structure RegisterToolRequest where
  name : String
  version : String
  description : String
  schema : ToolSchema
  pricing : Option Pricing
  endpoint : String
  timeoutMS : Int
  tags : List String
  providerID : String
deriving DecidableEq, Repr

/-- Assembled tool as returned to callers (`Tool`). -/
structure Tool where
  id : String
  name : String
  version : String
  description : String
  schema : ToolSchema
  pricing : Pricing
  providerId : String
  endpoint : String
  timeoutMS : Int
  tags : List String
  createdAt : Int
  updatedAt : Int
  isActive : Bool
deriving DecidableEq, Repr

/-- One row of the `tools` table; `tags` is the comma-joined string column. -/
structure ToolRow where
  id : String
  name : String
  version : String
  description : String
  schema : ToolSchema
  pricing : Pricing
  providerId : String
  endpoint : String
  timeoutMS : Int
  tags : String
  createdAt : Int
  updatedAt : Int
  isActive : Bool
deriving DecidableEq, Repr

/-- One row of the `providers` table. -/
structure ProviderRow where
  id : String
  name : String
  endpoint : String
  pubkey : String
  stakeClaw : String
  reputation : Int
  createdAt : Int
  lastSeen : Int
deriving DecidableEq, Repr

/-- One row of the `invocations` table. -/
structure InvRow where
  id : String
  toolId : String
  consumerId : String
  inputHash : String
  outputHash : Option String
  receiptSig : Option String
  status : String
  costClaw : Option String
  escrowId : Option String
  startedAt : Int
  completedAt : Option Int
  errMsg : Option String
deriving DecidableEq, Repr

/-- The SQLite database: the three entity tables.  The FTS index is a
projection maintained by triggers and is modelled at query time by a
match predicate over the mirrored row (see `SearchTools`). -/
structure RegState where
  providers : List ProviderRow
  tools : List ToolRow
  invocations : List InvRow
deriving DecidableEq, Repr

/-- Registry errors: `ErrNotFound`, `ErrDuplicate`, validation errors, and
unclassified store errors. -/
inductive RegErr where
  | notFound
  | duplicate
  | validation (msg : String)
  | internal (msg : String)
deriving DecidableEq, Repr

/-- Search parameters (`SearchQuery`); the unused `max_price_claw` float
field is never read by the engine and is omitted. -/
structure SearchQuery where
  query : String
  tag : String
  provider : String
  page : Int
  limit : Int
deriving DecidableEq, Repr

/-- Paginated result (`SearchResult`). -/
structure SearchResult where
  tools : List Tool
  total : Int
  page : Int
  limit : Int
  query : String
deriving DecidableEq, Repr

/-! ## Identity derivation and input hashing (`registry.go`) -/

/-- Deterministic DID for a tool (`makeToolDID`): first 16 bytes of the
SHA-256 of `name + "@" + version + "#" + providerID`, hex-encoded. -/
def makeToolDID (name version providerID : String) : String :=
  "did:claw:tool:" ++ hexEncode ((sha256 (strBytes (name ++ "@" ++ version ++ "#" ++ providerID))).take 16)

/-- Input digest (`hashInput`) of the JSON-serialized input map; the map's
serialization is taken as the argument. -/
def hashInput (inputJson : String) : String :=
  "sha256:" ++ hexEncode (sha256 (strBytes inputJson))

/-! ## Validation (`RegisterToolRequest.Validate`, `ToolSchema.Validate`) -/

/-- Go `ToolSchema.Validate`: the input schema must parse as JSON; a
nonempty output schema must parse as well. -/
def schemaValidate (jsonOk : String → Bool) (s : ToolSchema) : Bool :=
  jsonOk s.input && (s.output.length = 0 || jsonOk s.output)

/-- The `r.TimeoutMS <= 0` coercion in `Validate` (in-place in Go). -/
def coerceTimeout (r : RegisterToolRequest) : RegisterToolRequest :=
  if r.timeoutMS ≤ 0 then { r with timeoutMS := 30000 } else r

/-- The `r.Pricing == nil` coercion in `Validate` (in-place in Go). -/
def coercePricing (r : RegisterToolRequest) : RegisterToolRequest :=
  match r.pricing with
  | none => { r with pricing := some ⟨"free", ""⟩ }
  | some _ => r

/-- Go `RegisterToolRequest.Validate`: requires name, version and endpoint;
coerces a non-positive timeout to 30000 and a missing pricing to `free`.
The Go method mutates the request in place; here the coerced request is
returned. -/
def validate (jsonOk : String → Bool) (r : RegisterToolRequest) : Except String RegisterToolRequest :=
  if r.name = "" then .error "name is required"
  else if r.version = "" then .error "version is required"
  else if r.endpoint = "" then .error "endpoint is required"
  else
    let r := coercePricing (coerceTimeout r)
    if schemaValidate jsonOk r.schema then .ok r
    else .error "invalid schema"

/-! ## Registry operations (`registry.go`)

Each operation returns its result together with the successor database
state.  The state is returned even on error: the Go code runs each SQL
statement in its own implicit transaction, so statements that committed
before a later failure remain visible. -/

/-- Row-scan and assembly (`scanTool`/`assembleTool`): splits the stored
tags string on commas (empty column ↦ no tags). -/
def assembleTool (r : ToolRow) : Tool :=
  { id := r.id, name := r.name, version := r.version, description := r.description
    schema := r.schema, pricing := r.pricing, providerId := r.providerId
    endpoint := r.endpoint, timeoutMS := r.timeoutMS
    tags := if r.tags = "" then [] else goSplitComma r.tags
    createdAt := r.createdAt, updatedAt := r.updatedAt, isActive := r.isActive }

/-- `GetTool`: point lookup by primary key (`WHERE id = ?`). -/
def GetTool (st : RegState) (id : String) : Except RegErr Tool :=
  match st.tools.find? (fun r => decide (r.id = id)) with
  | some r => .ok (assembleTool r)
  | none => .error .notFound

/-- The provider auto-upsert inside `RegisterTool`: `INSERT ... ON
CONFLICT(id) DO UPDATE SET last_seen=excluded.last_seen` with placeholder
fields for a never-registered provider. -/
def upsertProviderTouch (pid : String) (now : Int) (ps : List ProviderRow) : List ProviderRow :=
  if ps.any (fun p => decide (p.id = pid)) then
    ps.map (fun p => if p.id = pid then { p with lastSeen := now } else p)
  else
    ps ++ [{ id := pid, name := "", endpoint := "", pubkey := "", stakeClaw := "0",
             reputation := 0, createdAt := now, lastSeen := now }]

/-- Uniqueness violations the `tools` insert can hit: the primary key on
`id`, or the partial unique index on `(name, version, provider_id)` over
rows `WHERE is_active = 1` (the inserted row is active by default). -/
abbrev toolInsertConflict (tools : List ToolRow) (req : RegisterToolRequest) (id : String) : Prop :=
  ∃ r ∈ tools, r.id = id ∨
    (r.isActive = true ∧ r.name = req.name ∧ r.version = req.version ∧ r.providerId = req.providerID)

/-- The `tools` row built by `RegisterTool`'s `INSERT` from the validated
request (`is_active` takes the schema default 1). -/
def newToolRow (req : RegisterToolRequest) (id tags : String) (now : Int) : ToolRow :=
  { id, name := req.name, version := req.version, description := req.description
    schema := req.schema, pricing := req.pricing.getD ⟨"free", ""⟩
    providerId := req.providerID, endpoint := req.endpoint, timeoutMS := req.timeoutMS
    tags, createdAt := now, updatedAt := now, isActive := true }

/-- `RegisterTool`: validate, derive the DID, auto-upsert the provider,
insert the tool, then re-read it via `GetTool`.  The provider upsert and
the tool insert are two separate autocommitted statements, so a failing
insert leaves the provider upsert in place. -/
def RegisterTool (jsonOk : String → Bool) (now : Int) (req : RegisterToolRequest)
    (st : RegState) : Except RegErr Tool × RegState :=
  match validate jsonOk req with
  | .error e => (.error (.validation e), st)
  | .ok req =>
    let id := makeToolDID req.name req.version req.providerID
    let tags := goJoinComma req.tags
    let st := { st with providers := upsertProviderTouch req.providerID now st.providers }
    if toolInsertConflict st.tools req id then
      (.error .duplicate, st)
    else
      let st := { st with tools := st.tools ++ [newToolRow req id tags now] }
      (GetTool st id, st)

/-- Page clamp in `ListTools`/`SearchTools`: `page <= 0` becomes 1. -/
def clampPage (page : Int) : Int := if page ≤ 0 then 1 else page

/-- Limit clamp in `ListTools`/`SearchTools`: out of `(0, 100]` becomes 20. -/
def clampLimit (limit : Int) : Int := if limit ≤ 0 ∨ 100 < limit then 20 else limit

/-- Descending creation-time order used by the listing queries. -/
def createdDesc (a b : ToolRow) : Prop := b.createdAt ≤ a.createdAt

instance : DecidableRel createdDesc := fun a b => inferInstanceAs (Decidable (_ ≤ _))

instance : IsTotal ToolRow createdDesc := ⟨fun a b => Int.le_total b.createdAt a.createdAt⟩

instance : IsTrans ToolRow createdDesc := ⟨fun _ _ _ h1 h2 => le_trans h2 h1⟩

/-- `SELECT ... FROM tools WHERE is_active = 1 ORDER BY created_at DESC`:
the active rows sorted by creation time descending (ties, which SQLite
may order arbitrarily, are resolved stably here). -/
def activeSorted (st : RegState) : List ToolRow :=
  List.insertionSort createdDesc (st.tools.filter (fun r => r.isActive))

/-- `ListTools`: clamps page/limit, pages through active tools newest
first, and reports the full active count as `total`. -/
def ListTools (page limit : Int) (st : RegState) : SearchResult :=
  let page := clampPage page
  let limit := clampLimit limit
  let offset := ((page - 1) * limit).toNat
  let rows := ((activeSorted st).drop offset).take limit.toNat
  { tools := rows.map assembleTool
    total := ((st.tools.filter (fun r => r.isActive)).length : Int)
    page, limit, query := "" }

/-- `SearchTools`: with a nonempty query, restricts to active rows whose
FTS entry matches the prefix-wildcarded query (`query + "*"`), modelled by
the `ftsMatch` predicate over the mirrored row; with an empty query, the
same `SELECT` as `ListTools`.  `total` is the length of the returned page
(`len(tools)`), not a separate count. -/
def SearchTools (ftsMatch : String → ToolRow → Bool) (q : SearchQuery)
    (st : RegState) : SearchResult :=
  let page := clampPage q.page
  let limit := clampLimit q.limit
  let offset := ((page - 1) * limit).toNat
  let rows :=
    if q.query ≠ "" then
      (((activeSorted st).filter (ftsMatch (q.query ++ "*"))).drop offset).take limit.toNat
    else
      ((activeSorted st).drop offset).take limit.toNat
  let tools := rows.map assembleTool
  { tools, total := (tools.length : Int), page, limit, query := q.query }

/-- `DeactivateTool`: `UPDATE tools SET is_active = 0, updated_at = ?
WHERE id = ? AND provider_id = ?`; zero affected rows yield
`ErrNotFound` ("not found or not authorized"). -/
def DeactivateTool (now : Int) (id providerID : String) (st : RegState) :
    Except RegErr Unit × RegState :=
  let hit := fun (r : ToolRow) => decide (r.id = id ∧ r.providerId = providerID)
  let st' := { st with tools := st.tools.map (fun r =>
    if r.id = id ∧ r.providerId = providerID then { r with isActive := false, updatedAt := now } else r) }
  if (st.tools.filter hit).length = 0 then (.error .notFound, st') else (.ok (), st')

/-- `RecordInvocation`: hash the input, generate `"inv_" + uuid` (the UUID
is an explicit argument here) and insert a `pending` row.  The insert can
fail on the `invocations` primary key or the foreign key to `tools`
(foreign keys are enabled by `store.Open`). -/
def RecordInvocation (now : Int) (uuid : String) (toolID consumerID : String)
    (inputJson : String) (st : RegState) : Except RegErr String × RegState :=
  let id := "inv_" ++ uuid
  if (∃ r ∈ st.invocations, r.id = id) ∨ ¬ ∃ t ∈ st.tools, t.id = toolID then
    (.error (.internal "record invocation"), st)
  else
    (.ok id, { st with invocations := st.invocations ++
      [{ id, toolId := toolID, consumerId := consumerID, inputHash := hashInput inputJson
         outputHash := none, receiptSig := none, status := "pending", costClaw := none
         escrowId := none, startedAt := now, completedAt := none, errMsg := none }] })

/-- `CompleteInvocation`: `UPDATE invocations SET status = 'completed',
output_hash, receipt_sig, cost_claw, completed_at WHERE id = ?`; the row
count is not inspected, so the call succeeds even when nothing matched. -/
def CompleteInvocation (now : Int) (id outputHash receiptSig costCLAW : String)
    (st : RegState) : Except RegErr Unit × RegState :=
  (.ok (), { st with invocations := st.invocations.map (fun r =>
    if r.id = id then
      { r with status := "completed", outputHash := some outputHash,
               receiptSig := some receiptSig, costClaw := some costCLAW,
               completedAt := some now }
    else r) })

/-- `FailInvocation`: `UPDATE invocations SET status = 'failed', error = ?,
completed_at = ? WHERE id = ?`; the row count is not inspected. -/
def FailInvocation (now : Int) (id reason : String) (st : RegState) :
    Except RegErr Unit × RegState :=
  (.ok (), { st with invocations := st.invocations.map (fun r =>
    if r.id = id then
      { r with status := "failed", errMsg := some reason, completedAt := some now }
    else r) })

/-! ## Concrete instances used to exercise the operations -/

/-- Schema-validity oracle accepting every raw document. -/
def jsonOkAll : String → Bool := fun _ => true

/-- The empty database, as left by `store.Open` on a fresh file. -/
def st0 : RegState := ⟨[], [], []⟩

/-- A well-formed registration request (cf. the end-to-end scenario). -/
def req0 : RegisterToolRequest :=
  { name := "solidity-auditor", version := "1.0.0", description := "audits"
    schema := ⟨"null", ""⟩, pricing := some ⟨"free", ""⟩, endpoint := "http://e"
    timeoutMS := 1000, tags := [], providerID := "did:claw:prov1" }

/-- The derived DID of `req0`'s triple. -/
def did0 : String := makeToolDID "solidity-auditor" "1.0.0" "did:claw:prov1"

/-- `req0` with a comma inside a tag. -/
def reqComma : RegisterToolRequest := { req0 with tags := ["a,b"] }

/-- `req0` with a single empty tag. -/
def reqEmptyTag : RegisterToolRequest := { req0 with tags := [""] }

/-- `req0` with comma-free tags. -/
def reqTags : RegisterToolRequest := { req0 with tags := ["security", "solidity"] }

/-- `req0` with a zero timeout and no pricing descriptor. -/
def reqC7 : RegisterToolRequest := { req0 with timeoutMS := 0, pricing := none }

/-- An active tool row with a plain literal ID. -/
def rowT : ToolRow :=
  { id := "t1", name := "n", version := "1", description := "", schema := ⟨"null", ""⟩
    pricing := ⟨"free", ""⟩, providerId := "p", endpoint := "e", timeoutMS := 1
    tags := "", createdAt := 1, updatedAt := 1, isActive := true }

/-- A second active tool row, registered earlier than `rowT`. -/
def rowS : ToolRow :=
  { id := "t2", name := "m", version := "1", description := "", schema := ⟨"null", ""⟩
    pricing := ⟨"free", ""⟩, providerId := "p", endpoint := "e", timeoutMS := 1
    tags := "", createdAt := 0, updatedAt := 0, isActive := true }

/-- A state holding the two active tools `rowT` and `rowS`. -/
def st2 : RegState := ⟨[], [rowT, rowS], []⟩

/-- A state holding one pending invocation. -/
def stInv : RegState :=
  ⟨[], [rowT],
   [{ id := "inv_a", toolId := "t1", consumerId := "c", inputHash := "h"
      outputHash := none, receiptSig := none, status := "pending", costClaw := none
      escrowId := none, startedAt := 1, completedAt := none, errMsg := none }]⟩

/-- FTS match predicate used where the query string is empty (unused). -/
def fmNone : String → ToolRow → Bool := fun _ _ => false

/-- The `tools` row inserted when `req0` is registered at time `now`. -/
def rowReg (now : Int) : ToolRow := newToolRow req0 did0 (goJoinComma req0.tags) now

/-- The state after registering `req0` at time `now` into the empty store. -/
def stReg (now : Int) : RegState :=
  ⟨upsertProviderTouch req0.providerID now st0.providers,
   st0.tools ++ [rowReg now], st0.invocations⟩

/-- `reqC7` after `Validate`'s coercions. -/
def reqC7v : RegisterToolRequest :=
  { reqC7 with timeoutMS := 30000, pricing := some ⟨"free", ""⟩ }

/-- The `tools` row inserted when `reqC7` is registered at time 1
(the triple, hence the DID, agrees with `req0`'s). -/
def row7 : ToolRow := newToolRow reqC7v did0 (goJoinComma reqC7v.tags) 1

/-- The state after registering `reqC7` into the empty store. -/
def st7 : RegState :=
  ⟨upsertProviderTouch reqC7v.providerID 1 st0.providers,
   st0.tools ++ [row7], st0.invocations⟩

/-- The `tools` row inserted when `reqTags` is registered at time 1. -/
def rowTags : ToolRow := newToolRow reqTags did0 (goJoinComma reqTags.tags) 1

/-- The state after registering `reqTags` into the empty store. -/
def stTags : RegState :=
  ⟨upsertProviderTouch reqTags.providerID 1 st0.providers,
   st0.tools ++ [rowTags], st0.invocations⟩

/-- `req0`'s row after deactivation at time 101. -/
def rowDead : ToolRow := { (rowReg 100) with isActive := false, updatedAt := 101 }

/-- The state after registering `req0` at time 100 and deactivating it at 101. -/
def stDead : RegState :=
  ⟨upsertProviderTouch req0.providerID 100 st0.providers, [rowDead], st0.invocations⟩

/-! ## Lemmas about comma split/join -/

theorem splitCommaChars_ne_nil (s : List Char) : splitCommaChars s ≠ [] := by
  induction s with
  | nil => simp [splitCommaChars]
  | cons c cs ih =>
    simp only [splitCommaChars]
    split
    · simp
    · cases h : splitCommaChars cs <;> simp

theorem splitCommaChars_no_comma (a : List Char) (h : ',' ∉ a) :
    splitCommaChars a = [a] := by
  induction a with
  | nil => rfl
  | cons c cs ih =>
    have hc : ¬ c = ',' := fun hc => h (hc ▸ List.mem_cons_self c cs)
    have hcs : ',' ∉ cs := fun hm => h (List.mem_cons_of_mem c hm)
    simp only [splitCommaChars, if_neg hc, ih hcs]

theorem splitCommaChars_append (a s : List Char) (h : ',' ∉ a) :
    splitCommaChars (a ++ ',' :: s) = a :: splitCommaChars s := by
  induction a with
  | nil => simp [splitCommaChars]
  | cons c cs ih =>
    have hc : ¬ c = ',' := fun hc => h (hc ▸ List.mem_cons_self c cs)
    have hcs : ',' ∉ cs := fun hm => h (List.mem_cons_of_mem c hm)
    simp only [List.cons_append, splitCommaChars, if_neg hc, List.append_eq, ih hcs]

theorem splitCommaChars_join (l : List (List Char)) (hne : l ≠ [])
    (h : ∀ a ∈ l, ',' ∉ a) : splitCommaChars (joinCommaChars l) = l := by
  induction l with
  | nil => exact absurd rfl hne
  | cons a t ih =>
    cases t with
    | nil =>
      simp only [joinCommaChars]
      exact splitCommaChars_no_comma a (h a (List.mem_cons_self a []))
    | cons b t' =>
      have ha : ',' ∉ a := h a (List.mem_cons_self a _)
      have ht : ∀ x ∈ b :: t', ',' ∉ x := fun x hx => h x (List.mem_cons_of_mem a hx)
      simp only [joinCommaChars, splitCommaChars_append a _ ha,
        ih (by simp) ht]

theorem goJoinComma_nil : goJoinComma [] = "" := rfl

theorem goJoinComma_ne_empty (l : List String) (hl : l ≠ []) (hne : l ≠ [""]) :
    goJoinComma l ≠ "" := by
  intro hcontra
  have hdata : joinCommaChars (l.map String.data) = [] := congrArg String.data hcontra
  cases l with
  | nil => exact hl rfl
  | cons a t =>
    cases t with
    | nil =>
      have : a.data = [] := by simpa [joinCommaChars] using hdata
      exact hne (by
        have : a = "" := congrArg String.mk this
        simp [this])
    | cons b t' =>
      have : a.data ++ ',' :: joinCommaChars ((b :: t').map String.data) = [] := by
        simpa [joinCommaChars] using hdata
      cases a.data <;> simp_all

/-- The tags column round trip: comma-free tag lists other than the lone
empty tag survive the join-then-split storage unchanged. -/
theorem tags_roundtrip (l : List String) (h : ∀ s ∈ l, ',' ∉ s.data) (hne : l ≠ [""]) :
    (if goJoinComma l = "" then [] else goSplitComma (goJoinComma l)) = l := by
  by_cases hl : l = []
  · subst hl; simp [goJoinComma_nil]
  · rw [if_neg (goJoinComma_ne_empty l hl hne)]
    show (splitCommaChars (String.mk (joinCommaChars (l.map String.data))).data).map String.mk = l
    have hd : (String.mk (joinCommaChars (l.map String.data))).data
        = joinCommaChars (l.map String.data) := rfl
    rw [hd, splitCommaChars_join (l.map String.data) (by simpa using hl)
      (by intro x hx; obtain ⟨s, hs, rfl⟩ := List.mem_map.mp hx; exact h s hs)]
    rw [List.map_map]
    show l.map (fun s => String.mk s.data) = l
    simp

/-! ## Lemmas about validation and registration -/

theorem coerceTimeout_spec (r : RegisterToolRequest) :
    coerceTimeout r = { r with timeoutMS := if r.timeoutMS ≤ 0 then 30000 else r.timeoutMS } := by
  unfold coerceTimeout
  split <;> simp_all

theorem coercePricing_spec (r : RegisterToolRequest) :
    coercePricing r = { r with pricing := some (r.pricing.getD ⟨"free", ""⟩) } := by
  unfold coercePricing
  rcases h : r.pricing with _ | p <;> cases r <;> simp_all

theorem validate_ok_inv (jsonOk : String → Bool) (r r' : RegisterToolRequest)
    (h : validate jsonOk r = .ok r') :
    r' = coercePricing (coerceTimeout r) := by
  simp only [validate] at h
  split at h
  · exact absurd h (by simp)
  split at h
  · exact absurd h (by simp)
  split at h
  · exact absurd h (by simp)
  split at h
  · injection h with h
    exact h.symm
  · exact absurd h (by simp)

theorem validate_ok_fields (jsonOk : String → Bool) (r r' : RegisterToolRequest)
    (h : validate jsonOk r = .ok r') :
    r'.name = r.name ∧ r'.version = r.version ∧ r'.description = r.description ∧
    r'.schema = r.schema ∧ r'.endpoint = r.endpoint ∧ r'.tags = r.tags ∧
    r'.providerID = r.providerID ∧
    r'.timeoutMS = (if r.timeoutMS ≤ 0 then 30000 else r.timeoutMS) ∧
    r'.pricing = some (r.pricing.getD ⟨"free", ""⟩) := by
  rw [validate_ok_inv jsonOk r r' h, coercePricing_spec, coerceTimeout_spec]
  simp

theorem find?_append_singleton {α} (p : α → Bool) (l : List α) (a : α)
    (hl : ∀ x ∈ l, p x = false) (ha : p a = true) :
    (l ++ [a]).find? p = some a := by
  induction l with
  | nil => simp [List.find?_cons_of_pos _ ha]
  | cons x xs ih =>
    have hx : ¬ p x = true := by simp [hl x (List.mem_cons_self x xs)]
    simpa [List.find?_cons_of_neg _ hx] using
      ih (fun y hy => hl y (List.mem_cons_of_mem x hy))

theorem RegisterTool_validate_error (jsonOk : String → Bool) (now : Int)
    (req : RegisterToolRequest) (st : RegState) (e : String)
    (h : validate jsonOk req = .error e) :
    RegisterTool jsonOk now req st = (.error (.validation e), st) := by
  simp [RegisterTool, h]

theorem RegisterTool_dup (jsonOk : String → Bool) (now : Int)
    (req r' : RegisterToolRequest) (st : RegState)
    (hv : validate jsonOk req = .ok r')
    (hc : toolInsertConflict st.tools r' (makeToolDID r'.name r'.version r'.providerID)) :
    RegisterTool jsonOk now req st =
      (.error .duplicate,
       { st with providers := upsertProviderTouch r'.providerID now st.providers }) := by
  simp [RegisterTool, hv, hc]

theorem RegisterTool_ok (jsonOk : String → Bool) (now : Int)
    (req r' : RegisterToolRequest) (st : RegState)
    (hv : validate jsonOk req = .ok r')
    (hnc : ¬ toolInsertConflict st.tools r' (makeToolDID r'.name r'.version r'.providerID)) :
    RegisterTool jsonOk now req st =
      (.ok (assembleTool (newToolRow r' (makeToolDID r'.name r'.version r'.providerID)
              (goJoinComma r'.tags) now)),
       { providers := upsertProviderTouch r'.providerID now st.providers,
         tools := st.tools ++ [newToolRow r' (makeToolDID r'.name r'.version r'.providerID)
                    (goJoinComma r'.tags) now],
         invocations := st.invocations }) := by
  have hid : ∀ x ∈ st.tools, decide (x.id = makeToolDID r'.name r'.version r'.providerID) = false :=
    fun x hx => decide_eq_false (fun hxid => hnc ⟨x, hx, Or.inl hxid⟩)
  have hfind : (st.tools ++ [newToolRow r' (makeToolDID r'.name r'.version r'.providerID)
        (goJoinComma r'.tags) now]).find?
        (fun r => decide (r.id = makeToolDID r'.name r'.version r'.providerID))
      = some (newToolRow r' (makeToolDID r'.name r'.version r'.providerID)
          (goJoinComma r'.tags) now) :=
    find?_append_singleton _ _ _ hid (decide_eq_true rfl)
  simp [RegisterTool, hv, hnc, GetTool, hfind]

theorem RegisterTool_ok_inv (jsonOk : String → Bool) (now : Int)
    (req : RegisterToolRequest) (st : RegState) (t : Tool) (st1 : RegState)
    (h : RegisterTool jsonOk now req st = (.ok t, st1)) :
    ∃ r', validate jsonOk req = .ok r' ∧
      ¬ toolInsertConflict st.tools r' (makeToolDID r'.name r'.version r'.providerID) ∧
      st1 = { providers := upsertProviderTouch r'.providerID now st.providers,
              tools := st.tools ++ [newToolRow r' (makeToolDID r'.name r'.version r'.providerID)
                         (goJoinComma r'.tags) now],
              invocations := st.invocations } ∧
      t = assembleTool (newToolRow r' (makeToolDID r'.name r'.version r'.providerID)
            (goJoinComma r'.tags) now) := by
  rcases hv : validate jsonOk req with e | r'
  · rw [RegisterTool_validate_error jsonOk now req st e hv] at h
    simp at h
  · by_cases hc : toolInsertConflict st.tools r' (makeToolDID r'.name r'.version r'.providerID)
    · rw [RegisterTool_dup jsonOk now req r' st hv hc] at h
      simp at h
    · rw [RegisterTool_ok jsonOk now req r' st hv hc] at h
      have h1 := congrArg Prod.fst h
      have h2 := congrArg Prod.snd h
      simp only at h1 h2
      injection h1 with h1
      exact ⟨r', rfl, hc, h2.symm, h1.symm⟩

/-! ## Lemmas about conditional updates and listing -/

theorem map_if_neg_id {α} (f : α → α) (p : α → Prop) [DecidablePred p] (l : List α)
    (h : ∀ a ∈ l, ¬ p a) : (l.map fun a => if p a then f a else a) = l := by
  conv_rhs => rw [← List.map_id l]
  exact List.map_congr_left (fun a ha => by rw [if_neg (h a ha)]; rfl)

theorem DeactivateTool_state (now : Int) (id pid : String) (st : RegState) :
    (DeactivateTool now id pid st).2
      = { st with tools := st.tools.map (fun r =>
            if r.id = id ∧ r.providerId = pid then
              { r with isActive := false, updatedAt := now }
            else r) } := by
  simp only [DeactivateTool]
  split <;> rfl

theorem mem_activeSorted {st : RegState} {r : ToolRow} (h : r ∈ activeSorted st) :
    r ∈ st.tools ∧ r.isActive = true := by
  have hf : r ∈ st.tools.filter (fun r => r.isActive) :=
    (List.perm_insertionSort createdDesc _).mem_iff.mp h
  exact ⟨(List.mem_filter.mp hf).1, (List.mem_filter.mp hf).2⟩

theorem pairwise_activeSorted (st : RegState) :
    List.Pairwise createdDesc (activeSorted st) :=
  List.sorted_insertionSort createdDesc _

/-! ## C6: ListTools pagination -/

/-- C6: for every page and limit, `ListTools` returns only active tools
ordered by creation time descending, clamps `page ≤ 0` to 1 and `limit`
outside `(0, 100]` to 20, and reports as `total` the count of all active
tools in the store, independent of the page window. -/
theorem c6_listTools_pagination (page limit : Int) (st : RegState) :
    (∀ t ∈ (ListTools page limit st).tools, t.isActive = true) ∧
    List.Pairwise (fun a b : Tool => b.createdAt ≤ a.createdAt) (ListTools page limit st).tools ∧
    (ListTools page limit st).total = ((st.tools.filter (fun r => r.isActive)).length : Int) ∧
    (ListTools page limit st).page = (if page ≤ 0 then 1 else page) ∧
    (ListTools page limit st).limit = (if limit ≤ 0 ∨ 100 < limit then 20 else limit) := by
  refine ⟨?_, ?_, rfl, rfl, rfl⟩
  · intro t ht
    simp only [ListTools] at ht
    obtain ⟨row, hrow, rfl⟩ := List.mem_map.mp ht
    have hsub : row ∈ activeSorted st :=
      ((List.take_sublist _ _).trans (List.drop_sublist _ _)).subset hrow
    exact (mem_activeSorted hsub).2
  · have hp : List.Pairwise createdDesc (((activeSorted st).drop
        ((clampPage page - 1) * clampLimit limit).toNat).take (clampLimit limit).toNat) :=
      (pairwise_activeSorted st).sublist
        ((List.take_sublist _ _).trans (List.drop_sublist _ _))
    simp only [ListTools]
    exact List.pairwise_map.mpr (hp.imp (fun h => h))

/-! ## C8: ownership-gated deactivation -/

/-- C8: `DeactivateTool` deactivates only rows owned by the requesting
provider; when no row matches the (id, provider) pair — unknown ID or a
non-owner — it fails with the single `NotFoundError` and leaves the state
unchanged, and every tool of another owner is untouched. -/
theorem c8_deactivate_ownership (now : Int) (id pid : String) (st : RegState) :
    ((∀ r ∈ st.tools, ¬(r.id = id ∧ r.providerId = pid)) →
        DeactivateTool now id pid st = (.error .notFound, st)) ∧
    (∀ r ∈ st.tools, r.providerId ≠ pid →
        r ∈ (DeactivateTool now id pid st).2.tools) := by
  constructor
  · intro h
    have hmap : (st.tools.map fun r =>
        if r.id = id ∧ r.providerId = pid then
          { r with isActive := false, updatedAt := now }
        else r) = st.tools :=
      map_if_neg_id _ _ _ h
    have hfil : (st.tools.filter (fun r => decide (r.id = id ∧ r.providerId = pid))) = [] :=
      List.filter_eq_nil_iff.mpr (fun a ha => by simpa using h a ha)
    simp [DeactivateTool, hfil, hmap]
    exact fun x hx hxid hp => h x hx ⟨hxid, hp⟩
  · intro r hr hpid
    rw [DeactivateTool_state]
    have hmem := List.mem_map_of_mem (f := fun x : ToolRow =>
      if x.id = id ∧ x.providerId = pid then
        { x with isActive := false, updatedAt := now }
      else x) hr
    have hval : (fun x : ToolRow =>
        if x.id = id ∧ x.providerId = pid then
          { x with isActive := false, updatedAt := now }
        else x) r = r :=
      if_neg (fun hand => hpid hand.2)
    rwa [hval] at hmem

/-! ## C9: completing/failing an unknown invocation is a silent no-op -/

/-- C9: for an invocation ID absent from the store, `CompleteInvocation`
and `FailInvocation` return no error and leave the store unchanged. -/
theorem c9_unknown_invocation_noop (now : Int) (id outputHash receiptSig costCLAW reason : String)
    (st : RegState) (h : ∀ r ∈ st.invocations, r.id ≠ id) :
    CompleteInvocation now id outputHash receiptSig costCLAW st = (.ok (), st) ∧
    FailInvocation now id reason st = (.ok (), st) := by
  have hc : (st.invocations.map fun r =>
      if r.id = id then
        { r with status := "completed", outputHash := some outputHash,
                 receiptSig := some receiptSig, costClaw := some costCLAW,
                 completedAt := some now }
      else r) = st.invocations :=
    map_if_neg_id _ _ _ h
  have hf : (st.invocations.map fun r =>
      if r.id = id then
        { r with status := "failed", errMsg := some reason, completedAt := some now }
      else r) = st.invocations :=
    map_if_neg_id _ _ _ h
  constructor
  · simp [CompleteInvocation, hc]
  · simp [FailInvocation, hf]

/-! ## C2: pure identity derivation, duplicate detection -/

/-- C2: `makeToolDID` is a pure function of the triple (re-deriving yields
the same value), and a second `RegisterTool` with the identical request
against the state left by a successful first registration returns
`DuplicateError` and adds no second row. -/
theorem c2_idempotent_identity :
    (∀ n v p, makeToolDID n v p = makeToolDID n v p) ∧
    (∀ (jsonOk : String → Bool) (now now' : Int) (req : RegisterToolRequest)
        (st : RegState) (t : Tool) (st1 : RegState),
        RegisterTool jsonOk now req st = (.ok t, st1) →
        (RegisterTool jsonOk now' req st1).1 = .error .duplicate ∧
        (RegisterTool jsonOk now' req st1).2.tools = st1.tools) := by
  refine ⟨fun _ _ _ => rfl, ?_⟩
  intro jsonOk now now' req st t st1 h
  obtain ⟨r', hv, hnc, hst1, ht⟩ := RegisterTool_ok_inv _ _ _ _ _ _ h
  have hc : toolInsertConflict st1.tools r' (makeToolDID r'.name r'.version r'.providerID) := by
    refine ⟨newToolRow r' (makeToolDID r'.name r'.version r'.providerID)
      (goJoinComma r'.tags) now, ?_, Or.inl rfl⟩
    rw [hst1]
    simp
  rw [RegisterTool_dup jsonOk now' req r' st1 hv hc]
  exact ⟨rfl, rfl⟩

/-! ## C7: default coercion of timeout and pricing -/

/-- C7: a successful registration whose request had a non-positive
`timeout_ms` persists 30000, and one without a pricing descriptor persists
the `free` pricing model. -/
theorem c7_default_coercion (jsonOk : String → Bool) (now : Int)
    (req : RegisterToolRequest) (st : RegState) (t : Tool) (st1 : RegState)
    (h : RegisterTool jsonOk now req st = (.ok t, st1)) :
    (req.timeoutMS ≤ 0 → t.timeoutMS = 30000) ∧
    (req.pricing = none → t.pricing.model = "free") := by
  obtain ⟨r', hv, _, _, ht⟩ := RegisterTool_ok_inv _ _ _ _ _ _ h
  obtain ⟨-, -, -, -, -, -, -, htime, hpr⟩ := validate_ok_fields _ _ _ hv
  subst ht
  constructor
  · intro h0
    simp [assembleTool, newToolRow, htime, if_pos h0]
  · intro hnone
    simp [assembleTool, newToolRow, hpr, hnone]

/-! ## C10: tags round trip through the comma-joined column -/

/-- C10 (amended): tags survive registration and retrieval exactly when
each tag is comma-free and the list is not the lone empty tag `[""]`;
moreover the registered tool is fetched back unchanged by `GetTool`.  A
tag containing a comma comes back split: registering tags `["a,b"]`
returns tags `["a", "b"]`. -/
theorem c10_tags_roundtrip :
    (∀ (jsonOk : String → Bool) (now : Int) (req : RegisterToolRequest)
        (st : RegState) (t : Tool) (st1 : RegState),
        RegisterTool jsonOk now req st = (.ok t, st1) →
        (∀ s ∈ req.tags, ',' ∉ s.data) → req.tags ≠ [""] →
        t.tags = req.tags ∧ GetTool st1 t.id = .ok t) ∧
    ((RegisterTool jsonOkAll 1 reqComma st0).1.map Tool.tags = .ok ["a", "b"] ∧
      reqComma.tags = ["a,b"]) := by
  refine ⟨?_, ?_, rfl⟩
  · intro jsonOk now req st t st1 h hcf hne
    obtain ⟨r', hv, hnc, hst1, ht⟩ := RegisterTool_ok_inv _ _ _ _ _ _ h
    obtain ⟨-, -, -, -, -, htags, -, -, -⟩ := validate_ok_fields _ _ _ hv
    constructor
    · subst ht
      show (if goJoinComma r'.tags = "" then [] else goSplitComma (goJoinComma r'.tags)) = req.tags
      rw [htags]
      exact tags_roundtrip req.tags hcf hne
    · subst ht
      subst hst1
      have hfind : (st.tools ++ [newToolRow r' (makeToolDID r'.name r'.version r'.providerID)
            (goJoinComma r'.tags) now]).find?
            (fun r => decide (r.id = (assembleTool (newToolRow r'
              (makeToolDID r'.name r'.version r'.providerID) (goJoinComma r'.tags) now)).id))
          = some (newToolRow r' (makeToolDID r'.name r'.version r'.providerID)
              (goJoinComma r'.tags) now) :=
        find?_append_singleton _ _ _
          (fun x hx => decide_eq_false (fun hxid => hnc ⟨x, hx, Or.inl hxid⟩))
          (decide_eq_true rfl)
      simp [GetTool, hfind]
  · rw [RegisterTool_ok jsonOkAll 1 reqComma reqComma st0 rfl
      (by simp [toolInsertConflict, st0])]
    simp only [Except.map]
    congr 1

/-! ## C3: empty-query search versus listing -/

/-- C3 (counterexample): with two active tools and `limit = 1`, the
empty-query `SearchTools` result differs from `ListTools` — the page
contents coincide but `total` is 1 versus 2. -/
theorem c3_counterexample :
    SearchTools fmNone ⟨"", "", "", 1, 1⟩ st2 ≠ ListTools 1 1 st2 ∧
    (SearchTools fmNone ⟨"", "", "", 1, 1⟩ st2).total = 1 ∧
    (ListTools 1 1 st2).total = 2 := by
  refine ⟨?_, by decide, by decide⟩
  intro h
  have := congrArg SearchResult.total h
  simp only [show (SearchTools fmNone ⟨"", "", "", 1, 1⟩ st2).total = 1 from by decide,
    show (ListTools 1 1 st2).total = 2 from by decide] at this
  exact absurd this (by decide)

/-- C3 (amended): an empty-query `SearchTools` returns the same tools in
the same order as `ListTools` with the same page and limit, but reports as
`total` the length of the returned page rather than `ListTools`'s full
active count. -/
theorem c3_empty_search_eq_list (fm : String → ToolRow → Bool) (tg pv : String)
    (page limit : Int) (st : RegState) :
    SearchTools fm ⟨"", tg, pv, page, limit⟩ st
      = { ListTools page limit st with
          total := (((ListTools page limit st).tools.length : Nat) : Int) } := by
  rfl

/-! ## C5: FailInvocation after CompleteInvocation -/

/-- C5 (code evaluated at the failing input): record an invocation,
complete it (status `completed`), then call `FailInvocation` on the same
ID — the status is reverted to `failed`, so `FailInvocation` is neither
rejected nor a no-op on a completed invocation. -/
theorem c5_fail_reverts_completed :
    ((CompleteInvocation 11 "inv_u1" "oh" "sig" "1"
        (RecordInvocation 10 "u1" "t1" "c1" "null" ⟨[], [rowT], []⟩).2).2.invocations.map
          InvRow.status = ["completed"]) ∧
    ((FailInvocation 12 "inv_u1" "boom"
        (CompleteInvocation 11 "inv_u1" "oh" "sig" "1"
          (RecordInvocation 10 "u1" "t1" "c1" "null" ⟨[], [rowT], []⟩).2).2).2.invocations.map
          InvRow.status = ["failed"]) ∧
    (FailInvocation 12 "inv_u1" "boom"
        (CompleteInvocation 11 "inv_u1" "oh" "sig" "1"
          (RecordInvocation 10 "u1" "t1" "c1" "null" ⟨[], [rowT], []⟩).2).2).1 = .ok () := by
  have hid : ("inv_" ++ "u1" : String) = "inv_u1" := by decide
  constructor
  · simp [RecordInvocation, CompleteInvocation, rowT, hid]
  constructor
  · simp [RecordInvocation, CompleteInvocation, FailInvocation, rowT, hid]
  · simp [FailInvocation]

/-! ## Shared facts about the concrete instances -/

theorem validate_req0 : validate jsonOkAll req0 = .ok req0 := rfl

theorem no_conflict_st0 (r : RegisterToolRequest) (id : String) :
    ¬ toolInsertConflict st0.tools r id := by
  simp [toolInsertConflict, st0]

theorem did_req0 : makeToolDID req0.name req0.version req0.providerID = did0 := rfl

/-- The state after registering `req0` at `now` into the empty store. -/
theorem register_req0_st0 (now : Int) :
    RegisterTool jsonOkAll now req0 st0 = (.ok (assembleTool (rowReg now)), stReg now) := by
  have h := RegisterTool_ok jsonOkAll now req0 req0 st0 validate_req0 (no_conflict_st0 _ _)
  rwa [did_req0] at h

theorem deactivate_req0 :
    DeactivateTool 101 did0 "did:claw:prov1" (stReg 100) = (.ok (), stDead) := by
  simp [DeactivateTool, stReg, stDead, rowReg, rowDead, st0, newToolRow, req0]

theorem conflict_stDead :
    toolInsertConflict stDead.tools req0 (makeToolDID req0.name req0.version req0.providerID) :=
  ⟨rowDead, by simp [stDead], Or.inl (by simp [rowDead, rowReg, newToolRow]; exact did_req0.symm)⟩

theorem conflict_stReg (now : Int) :
    toolInsertConflict (stReg now).tools req0 (makeToolDID req0.name req0.version req0.providerID) :=
  ⟨rowReg now, by simp [stReg], Or.inl (by simp [rowReg, newToolRow]; exact did_req0.symm)⟩

/-! ## C1: re-registration after deactivation -/

/-- C1 (code evaluated at the failing input): register `req0`, deactivate
it as its owner (which succeeds), then register the identical triple
again: the code returns `DuplicateError`, because the re-derived DID
collides with the deactivated row's primary key even though the partial
uniqueness index is scoped to active rows. -/
theorem c1_reuse_after_deactivation_fails :
    (RegisterTool jsonOkAll 100 req0 st0).1 = .ok (assembleTool (rowReg 100)) ∧
    (DeactivateTool 101 did0 "did:claw:prov1" (RegisterTool jsonOkAll 100 req0 st0).2).1
      = .ok () ∧
    (RegisterTool jsonOkAll 102 req0
        (DeactivateTool 101 did0 "did:claw:prov1" (RegisterTool jsonOkAll 100 req0 st0).2).2).1
      = .error .duplicate := by
  have h1 := register_req0_st0 100
  have h3 := RegisterTool_dup jsonOkAll 102 req0 req0 stDead validate_req0 conflict_stDead
  refine ⟨?_, ?_, ?_⟩ <;> simp only [h1, deactivate_req0, h3]

/-! ## C4: the provider upsert survives a failed tool insert -/

/-- C4 (code evaluated at the failing input): registering `req0` twice
runs the provider upsert of the second call before its tool insert fails
with `DuplicateError`; the provider row's `last_seen` is bumped from 1 to
2, so the failed registration modified prior state — the two statements
were not one atomic unit. -/
theorem c4_provider_upsert_not_atomic :
    (RegisterTool jsonOkAll 2 req0 (RegisterTool jsonOkAll 1 req0 st0).2).1
      = .error .duplicate ∧
    (RegisterTool jsonOkAll 1 req0 st0).2.providers
      = [{ id := "did:claw:prov1", name := "", endpoint := "", pubkey := "",
           stakeClaw := "0", reputation := 0, createdAt := 1, lastSeen := 1 }] ∧
    (RegisterTool jsonOkAll 2 req0 (RegisterTool jsonOkAll 1 req0 st0).2).2.providers
      = [{ id := "did:claw:prov1", name := "", endpoint := "", pubkey := "",
           stakeClaw := "0", reputation := 0, createdAt := 1, lastSeen := 2 }] := by
  have h1 := register_req0_st0 1
  have h3 := RegisterTool_dup jsonOkAll 2 req0 req0 (stReg 1) validate_req0 (conflict_stReg 1)
  refine ⟨?_, ?_, ?_⟩ <;> simp only [h1, h3] <;>
    simp [stReg, upsertProviderTouch, st0, req0]

/-! ## Further registration runs used by witnesses -/

theorem register_reqC7_st0 :
    RegisterTool jsonOkAll 1 reqC7 st0 = (.ok (assembleTool row7), st7) := by
  have h := RegisterTool_ok jsonOkAll 1 reqC7 reqC7v st0 rfl (no_conflict_st0 _ _)
  rwa [show makeToolDID reqC7v.name reqC7v.version reqC7v.providerID = did0 from rfl] at h

theorem register_reqTags_st0 :
    RegisterTool jsonOkAll 1 reqTags st0 = (.ok (assembleTool rowTags), stTags) := by
  have h := RegisterTool_ok jsonOkAll 1 reqTags reqTags st0 rfl (no_conflict_st0 _ _)
  rwa [show makeToolDID reqTags.name reqTags.version reqTags.providerID = did0 from rfl] at h

/-! ## C10 counterexample: a comma-free tag list that does not round-trip -/

/-- C10 (counterexample): the single empty tag `[""]` is comma-free, its
registration succeeds, yet the stored column is the empty string and the
returned tag list is `[]`, not `[""]`. -/
theorem c10_counterexample :
    (∀ s ∈ reqEmptyTag.tags, ',' ∉ s.data) ∧
    (RegisterTool jsonOkAll 1 reqEmptyTag st0).1.map Tool.tags = .ok [] ∧
    reqEmptyTag.tags = [""] ∧ ([] : List String) ≠ [""] := by
  refine ⟨by decide, ?_, rfl, by decide⟩
  rw [RegisterTool_ok jsonOkAll 1 reqEmptyTag reqEmptyTag st0 rfl (no_conflict_st0 _ _)]
  simp only [Except.map]
  congr 1

/-! ## Witnesses -/

theorem c2_witness :
    (RegisterTool jsonOkAll 2 req0 (RegisterTool jsonOkAll 1 req0 st0).2).1
      = .error .duplicate :=
  (c2_idempotent_identity.2 jsonOkAll 1 2 req0 st0 _ _ (register_req0_st0 1)).1

theorem c6_witness : (assembleTool rowT).isActive = true :=
  (c6_listTools_pagination 1 1 st2).1 (assembleTool rowT) (by decide)

theorem c7_witness :
    reqC7.timeoutMS ≤ 0 ∧ reqC7.pricing = none ∧
    (assembleTool row7).timeoutMS = 30000 ∧ (assembleTool row7).pricing.model = "free" := by
  have hc := c7_default_coercion jsonOkAll 1 reqC7 st0 (assembleTool row7) st7 register_reqC7_st0
  exact ⟨by decide, rfl, hc.1 (by decide), hc.2 rfl⟩

theorem c8_witness :
    DeactivateTool 5 "t1" "q" st2 = (.error .notFound, st2) ∧
    rowT ∈ (DeactivateTool 5 "t1" "q" st2).2.tools :=
  ⟨(c8_deactivate_ownership 5 "t1" "q" st2).1 (by decide),
   (c8_deactivate_ownership 5 "t1" "q" st2).2 rowT (by decide) (by decide)⟩

theorem c9_witness :
    CompleteInvocation 7 "nope" "o" "r" "c" stInv = (.ok (), stInv) ∧
    FailInvocation 7 "nope" "why" stInv = (.ok (), stInv) :=
  c9_unknown_invocation_noop 7 "nope" "o" "r" "c" "why" stInv (by decide)

theorem c10_witness :
    (assembleTool rowTags).tags = reqTags.tags ∧
    GetTool stTags (assembleTool rowTags).id = .ok (assembleTool rowTags) :=
  c10_tags_roundtrip.1 jsonOkAll 1 reqTags st0 _ _ register_reqTags_st0
    (by decide) (by decide)

end AgentTools
